import Mathlib

/-!
Verification of the medicalImageViewer inference stack
(`remote_inference_client.py` and `yolo_inference_server.py`).

Conventions of the shallow embedding:
* Python byte strings and text are modelled as `String` or `List Char`
  (one `Char` per byte where raw bytes matter; the code never inspects
  bytes beyond equality and slicing).
* Numeric scalars carried by the normalizer (box coordinates, confidences,
  class ids) are modelled as `Int`: the code only moves them around
  (the `int()` / `float()` coercions perform no arithmetic on already
  numeric values, so they are identities in the model).
* Fallible code returns `Except`/`Option`; raising `RemoteInferenceError`
  is `Except.error` with the formatted message.
* External collaborators (the YOLO model, PIL image decoding, `json.loads`,
  `mimetypes.guess_type`, the uuid generator) are opaque parameters.
-/

/-- Minimal JSON value model: the shapes `json.loads` can produce and
`flask.jsonify` consumes. -/
inductive J where
  | null : J
  | bool : Bool → J
  | num  : Int → J
  | str  : String → J
  | arr  : List J → J
  | obj  : List (String × J) → J

/-- Dictionary lookup on a JSON object's key-value list (Python `dict` access
with insertion-ordered keys). -/
def jLookup (kvs : List (String × J)) (k : String) : Option J :=
  match kvs with
  | [] => none
  | (k0, v) :: rest => if k0 = k then some v else jLookup rest k

/-- The priority order of keys probed in a mapping response, from the client
module docstring: boxes, bboxes, detections, predictions, results. -/
def priorityKeys : List String :=
  ["boxes", "bboxes", "detections", "predictions", "results"]

/-- First key from `keys` present in `kvs` whose value is a JSON sequence. -/
def firstSeq (kvs : List (String × J)) : List String → Option (List J)
  | [] => none
  | k :: ks =>
    match jLookup kvs k with
    | some (J.arr xs) => some xs
    | _ => firstSeq kvs ks

/-- Modelled from the spec: `extractDetections` (spec section 4.4) is absent
from the source tree; only the client module docstring records the accepted
response shapes. Per the spec: a sequence is used directly; a mapping is
probed for `boxes`, `bboxes`, `detections`, `predictions`, `results` in that
order and the first key present whose value is a sequence is used; any other
shape is returned unchanged with no error. -/
def extractDetections : J → J
  | J.arr xs => J.arr xs
  | J.obj kvs =>
    match firstSeq kvs priorityKeys with
    | some xs => J.arr xs
    | none => J.obj kvs
  | other => other

/-- `_join_url` from `remote_inference_client.py`, over `List Char`
(Python `str.endswith("/")` is `getLast? = some '/'`, `str.startswith("/")`
is `head? = some '/'`, `s[:-1]` is `dropLast`). -/
def joinUrl (serverUrl endpoint : List Char) : Except String (List Char) :=
  if serverUrl = [] then
    Except.error "Server URL cannot be empty."
  else if endpoint = [] then
    Except.ok serverUrl
  else if serverUrl.getLast? = some '/' ∧ endpoint.head? = some '/' then
    Except.ok (serverUrl.dropLast ++ endpoint)
  else if serverUrl.getLast? ≠ some '/' ∧ endpoint.head? ≠ some '/' then
    Except.ok (serverUrl ++ '/' :: endpoint)
  else
    Except.ok (serverUrl ++ endpoint)

/-- Drop one trailing slash if present (used only to state the URL-join
property, not by the code). -/
def rstrip1 (s : List Char) : List Char :=
  if s.getLast? = some '/' then s.dropLast else s

/-- Drop one leading slash if present (used only to state the URL-join
property, not by the code). -/
def lstrip1 (s : List Char) : List Char :=
  if s.head? = some '/' then s.tail else s

theorem eq_dropLast_append_of_getLast? {l : List Char} {c : Char}
    (h : l.getLast? = some c) : l = l.dropLast ++ [c] := by
  induction l with
  | nil => simp at h
  | cons a t ih =>
    cases t with
    | nil => simp at h; simp [h]
    | cons b t' =>
      have h' : (b :: t').getLast? = some c := by
        simpa [List.getLast?] using h
      have := ih h'
      simpa [List.dropLast] using congrArg (a :: ·) this

theorem joinUrl_strip_form (b e : List Char) (hb : b ≠ []) (he : e ≠ []) :
    joinUrl b e = Except.ok (rstrip1 b ++ '/' :: lstrip1 e) := by
  unfold joinUrl rstrip1 lstrip1
  rw [if_neg hb, if_neg he]
  by_cases hbl : b.getLast? = some '/' <;> by_cases heh : e.head? = some '/'
  · rw [if_pos ⟨hbl, heh⟩, if_pos hbl, if_pos heh]
    cases e with
    | nil => exact absurd rfl he
    | cons c e' =>
      have : c = '/' := by simpa using heh
      simp [this]
  · rw [if_neg (by simp [heh]), if_neg (by simp [hbl]), if_pos hbl, if_neg heh]
    have hb' := eq_dropLast_append_of_getLast? hbl
    conv_lhs => rw [hb']
    simp
  · rw [if_neg (fun h => hbl h.1), if_neg (fun h => h.2 heh), if_neg hbl, if_pos heh]
    cases e with
    | nil => exact absurd rfl he
    | cons c e' =>
      have : c = '/' := by simpa using heh
      simp [this]
  · rw [if_neg (fun h => hbl h.1), if_pos ⟨hbl, heh⟩, if_neg hbl, if_neg heh]

/-- C6: for every non-empty base URL, the join returns the base verbatim when
the endpoint is empty; for non-empty endpoints the result is the base with at
most one trailing slash removed, exactly one '/', then the endpoint with at
most one leading slash removed — so exactly one '/' stands at the seam
regardless of trailing/leading slashes; the spec's concrete instances hold. -/
theorem joinUrl_spec :
    (∀ b : List Char, b ≠ [] → joinUrl b [] = Except.ok b) ∧
    (∀ b e : List Char, b ≠ [] → e ≠ [] →
      joinUrl b e = Except.ok (rstrip1 b ++ '/' :: lstrip1 e)) ∧
    joinUrl "http://h/".toList "/infer".toList = Except.ok "http://h/infer".toList ∧
    joinUrl "http://h".toList "infer".toList = Except.ok "http://h/infer".toList ∧
    joinUrl "http://h".toList "/infer".toList = Except.ok "http://h/infer".toList ∧
    joinUrl "http://h".toList "".toList = Except.ok "http://h".toList := by
  refine ⟨?_, joinUrl_strip_form, rfl, rfl, rfl, rfl⟩
  intro b hb
  unfold joinUrl
  rw [if_neg hb]
  rfl

/-- C6 witness: the general clauses of `joinUrl_spec` applied at concrete
inputs. -/
theorem joinUrl_spec_witness :
    joinUrl "http://x/".toList [] = Except.ok "http://x/".toList ∧
    joinUrl "a/".toList "/b".toList =
      Except.ok (rstrip1 "a/".toList ++ '/' :: lstrip1 "/b".toList) := by
  exact ⟨joinUrl_spec.1 "http://x/".toList (by decide),
         joinUrl_spec.2.1 "a/".toList "/b".toList (by decide) (by decide)⟩

/-- C2: a JSON sequence is returned directly; a mapping is probed for the
priority keys in order, taking the first whose value is a sequence (the
concrete instances of the spec hold); any other shape — including a mapping
with no sequence-valued priority key — is returned unchanged, and no error
can be raised (the function is total). -/
theorem extractDetections_spec :
    (∀ xs : List J, extractDetections (J.arr xs) = J.arr xs) ∧
    (∀ (kvs : List (String × J)) (xs : List J),
      jLookup kvs "boxes" = some (J.arr xs) →
      extractDetections (J.obj kvs) = J.arr xs) ∧
    (∀ kvs : List (String × J), firstSeq kvs priorityKeys = none →
      extractDetections (J.obj kvs) = J.obj kvs) ∧
    extractDetections (J.obj [("predictions", J.arr [J.num 1, J.num 2])]) =
      J.arr [J.num 1, J.num 2] ∧
    extractDetections (J.obj [("boxes", J.arr [J.num 9]), ("results", J.arr [J.num 1])]) =
      J.arr [J.num 9] ∧
    extractDetections (J.arr [J.num 1, J.num 2, J.num 3]) =
      J.arr [J.num 1, J.num 2, J.num 3] ∧
    extractDetections J.null = J.null ∧
    (∀ s, extractDetections (J.str s) = J.str s) ∧
    (∀ n, extractDetections (J.num n) = J.num n) ∧
    (∀ b, extractDetections (J.bool b) = J.bool b) := by
  refine ⟨fun xs => rfl, ?_, ?_, rfl, rfl, rfl, rfl, fun s => rfl, fun n => rfl, fun b => rfl⟩
  · intro kvs xs h
    simp [extractDetections, priorityKeys, firstSeq, h]
  · intro kvs h
    simp [extractDetections, h]

/-- C2 witness: the hypothesis-bearing clauses of `extractDetections_spec`
applied at concrete objects. -/
theorem extractDetections_spec_witness :
    extractDetections (J.obj [("boxes", J.arr [J.num 7])]) = J.arr [J.num 7] ∧
    extractDetections (J.obj [("foo", J.num 1)]) = J.obj [("foo", J.num 1)] := by
  exact ⟨extractDetections_spec.2.1 [("boxes", J.arr [J.num 7])] [J.num 7] rfl,
         extractDetections_spec.2.2.1 [("foo", J.num 1)] rfl⟩

/-- One normalized detection record, as serialized by the `/infer` handler of
`yolo_inference_server.py`. Coordinates and confidences are modelled as `Int`
(pass-through values, see the file header). -/
structure Detection where
  x1 : Int
  y1 : Int
  x2 : Int
  y2 : Int
  class_id : Option Int
  class_name : Option String
  confidence : Option Int

/-- The model result's `boxes` attribute: optional coordinate array `xyxy`,
optional parallel confidence array `conf`, optional parallel class-id array
`cls` (each `None`-able, as probed by `getattr(..., None)`). -/
structure Boxes where
  xyxy : Option (List (Int × Int × Int × Int))
  conf : Option (List Int)
  cls : Option (List Int)

/-- One item of the model's prediction output: an optional `boxes` attribute
and a class-name mapping `names` (the `or {}` in the source collapses a
missing or falsy mapping to the empty one, hence a plain association list
here). -/
structure RawResult where
  boxes : Option Boxes
  names : List (Int × String)

/-- Python `dict.get` on the class-name mapping. -/
def namesGet : List (Int × String) → Int → Option String
  | [], _ => none
  | (k0, v) :: rest, k => if k0 = k then some v else namesGet rest k

/-- Body of the `for idx, bbox in enumerate(xyxy)` loop: coordinates are the
four components of the box; `class_id` is the class-id entry at `idx` when in
range (`int()` is the identity on the modelled integral values) and `None`
otherwise; `class_name` is `names.get(class_id)` when `class_id` is present;
`confidence` is the confidence entry at `idx` when in range. -/
def detRow (names : List (Int × String)) (classIds confs : List Int)
    (idx : Nat) (bbox : Int × Int × Int × Int) : Detection :=
  { x1 := bbox.1
    y1 := bbox.2.1
    x2 := bbox.2.2.1
    y2 := bbox.2.2.2
    class_id := classIds.get? idx
    class_name := (classIds.get? idx).bind (namesGet names)
    confidence := confs.get? idx }

/-- The enumeration loop of the handler, carrying the running index. -/
def buildRows (names : List (Int × String)) (classIds confs : List Int) :
    Nat → List (Int × Int × Int × Int) → List Detection
  | _, [] => []
  | idx, bb :: rest =>
    detRow names classIds confs idx bb :: buildRows names classIds confs (idx + 1) rest

/-- The normalization section of the `/infer` handler
(`yolo_inference_server.py` lines 107-141): use the first result item only;
with no result, no `boxes` attribute or no `xyxy` array the detection list is
empty; a missing `conf` or `cls` array is replaced by `np.zeros(len(xyxy))`. -/
def inferDetections (results : List RawResult) : List Detection :=
  match results with
  | [] => []
  | r0 :: _ =>
    match r0.boxes with
    | none => []
    | some b =>
      match b.xyxy with
      | none => []
      | some xyxy =>
        let confs := b.conf.getD (List.replicate xyxy.length 0)
        let classIds := b.cls.getD (List.replicate xyxy.length 0)
        buildRows r0.names classIds confs 0 xyxy

theorem buildRows_get? (names : List (Int × String)) (classIds confs : List Int)
    (l : List (Int × Int × Int × Int)) (start i : Nat) :
    (buildRows names classIds confs start l).get? i =
      (l.get? i).map (detRow names classIds confs (start + i)) := by
  induction l generalizing start i with
  | nil => simp [buildRows]
  | cons bb rest ih =>
    cases i with
    | zero => simp [buildRows]
    | succ j =>
      simp only [buildRows, List.get?]
      rw [ih (start + 1) j]
      have : start + 1 + j = start + (j + 1) := by omega
      rw [this]

theorem buildRows_length (names : List (Int × String)) (classIds confs : List Int)
    (l : List (Int × Int × Int × Int)) (start : Nat) :
    (buildRows names classIds confs start l).length = l.length := by
  induction l generalizing start with
  | nil => rfl
  | cons bb rest ih => simp [buildRows, ih]

/-- C7: the normalizer emits exactly one Detection per raw box, in input
order (the coordinate projection of the i-th detection is exactly the i-th
raw box — no sorting, no confidence filtering), and zero model results, a
missing `boxes` attribute or a missing coordinate array all yield the empty
detection list rather than an error. -/
theorem inferDetections_order_spec :
    inferDetections [] = [] ∧
    (∀ (r : RawResult) (rest : List RawResult), r.boxes = none →
      inferDetections (r :: rest) = []) ∧
    (∀ (r : RawResult) (rest : List RawResult) (b : Boxes),
      r.boxes = some b → b.xyxy = none → inferDetections (r :: rest) = []) ∧
    (∀ (r : RawResult) (rest : List RawResult) (b : Boxes)
      (l : List (Int × Int × Int × Int)),
      r.boxes = some b → b.xyxy = some l →
      (inferDetections (r :: rest)).length = l.length ∧
      ∀ i : Nat,
        ((inferDetections (r :: rest)).get? i).map (fun d => (d.x1, d.y1, d.x2, d.y2)) =
          l.get? i) := by
  refine ⟨rfl, ?_, ?_, ?_⟩
  · intro r rest h
    simp [inferDetections, h]
  · intro r rest b hb hx
    simp [inferDetections, hb, hx]
  · intro r rest b l hb hx
    constructor
    · simp [inferDetections, hb, hx, buildRows_length]
    · intro i
      simp only [inferDetections, hb, hx]
      rw [buildRows_get?]
      cases hgi : l.get? i with
      | none => rfl
      | some bb => simp [detRow]

/-- C7 witness: the hypothesis-bearing clauses of `inferDetections_order_spec`
applied to concrete model outputs. -/
theorem inferDetections_order_spec_witness :
    inferDetections [{ boxes := none, names := [] }] = [] ∧
    inferDetections
      [{ boxes := some { xyxy := none, conf := none, cls := none }, names := [] }] = [] ∧
    (inferDetections
      [{ boxes := some { xyxy := some [(0, 0, 10, 10)], conf := some [1], cls := some [2] },
         names := [(2, "car")] }]).length = 1 := by
  refine ⟨?_, ?_, ?_⟩
  · exact inferDetections_order_spec.2.1 { boxes := none, names := [] } [] rfl
  · exact inferDetections_order_spec.2.2.1
      { boxes := some { xyxy := none, conf := none, cls := none }, names := [] }
      [] { xyxy := none, conf := none, cls := none } rfl rfl
  · exact (inferDetections_order_spec.2.2.2
      { boxes := some { xyxy := some [(0, 0, 10, 10)], conf := some [1], cls := some [2] },
        names := [(2, "car")] }
      [] { xyxy := some [(0, 0, 10, 10)], conf := some [1], cls := some [2] }
      [(0, 0, 10, 10)] rfl rfl).1

/-- A model result with one box and no `conf` / `cls` arrays at all: the
input refuting the as-stated C1. -/
def exNoArrays : RawResult :=
  { boxes := some { xyxy := some [(0, 0, 10, 10)], conf := none, cls := none },
    names := [] }

/-- C1 counterexample: the model supplied neither a class-id array nor a
confidence array (`cls = none`, `conf = none`), yet the normalized detection
carries `class_id = 0` and `confidence = 0`: the missing arrays are replaced
by `np.zeros(len(xyxy))`, so the fields are fabricated, not absent. -/
theorem classId_confidence_fabricated_counterexample :
    (∃ b : Boxes, exNoArrays.boxes = some b ∧ b.cls = none ∧ b.conf = none) ∧
    ((inferDetections [exNoArrays]).get? 0).map (fun d => (d.class_id, d.confidence)) =
      some (some 0, some 0) := by
  exact ⟨⟨{ xyxy := some [(0, 0, 10, 10)], conf := none, cls := none }, rfl, rfl, rfl⟩, rfl⟩

/-- C1 amended: `class_id` (resp. `confidence`) of the i-th detection is
present iff the effective class-id (resp. confidence) array has an entry at
index i, where the effective array is the supplied one, or — when the model
supplied none — an all-zero array as long as the box array; so a wholly
missing array yields the value 0 on every box rather than absence, and
absence occurs only when a supplied array is shorter than the box array. -/
theorem classId_confidence_presence (r : RawResult) (rest : List RawResult)
    (b : Boxes) (l : List (Int × Int × Int × Int))
    (hb : r.boxes = some b) (hx : b.xyxy = some l) (i : Nat) :
    ((inferDetections (r :: rest)).get? i).map (fun d => (d.class_id, d.confidence)) =
      (l.get? i).map (fun _ =>
        ((b.cls.getD (List.replicate l.length 0)).get? i,
         (b.conf.getD (List.replicate l.length 0)).get? i)) := by
  simp only [inferDetections, hb, hx]
  rw [buildRows_get?]
  cases hgi : l.get? i with
  | none => rfl
  | some bb => simp [detRow]

/-- C1 witness: `classId_confidence_presence` on a concrete output whose
confidence array is supplied but shorter than the box array, and whose
class-id array is missing. -/
theorem classId_confidence_presence_witness :
    ((inferDetections
      [{ boxes := some { xyxy := some [(0, 0, 1, 1), (2, 2, 3, 3)], conf := some [9],
                         cls := none }, names := [] }]).get? 1).map
        (fun d => (d.class_id, d.confidence)) = some (some 0, none) := by
  have h := classId_confidence_presence
    { boxes := some { xyxy := some [(0, 0, 1, 1), (2, 2, 3, 3)], conf := some [9],
                      cls := none }, names := [] }
    [] { xyxy := some [(0, 0, 1, 1), (2, 2, 3, 3)], conf := some [9], cls := none }
    [(0, 0, 1, 1), (2, 2, 3, 3)] rfl rfl 1
  simpa using h

/-- A model result whose only box has class id 5 while the name mapping only
knows id 2. -/
def exLookupMiss : RawResult :=
  { boxes := some { xyxy := some [(0, 0, 10, 10)], conf := some [1], cls := some [5] },
    names := [(2, "car")] }

/-- C8: every emitted detection's `class_name` is exactly
`names.get(class_id)` sequenced through the optional `class_id` — absent
whenever `class_id` is absent or the mapping lacks the id — and a lookup miss
cannot fail: on the concrete miss input normalization still yields the
detection, with `class_id = 5` and `class_name` absent. -/
theorem class_name_resolution :
    (∀ (r : RawResult) (rest : List RawResult) (i : Nat) (d : Detection),
      (inferDetections (r :: rest)).get? i = some d →
      d.class_name = d.class_id.bind (namesGet r.names)) ∧
    ((inferDetections [exLookupMiss]).get? 0).map (fun d => (d.class_id, d.class_name)) =
      some (some 5, none) := by
  constructor
  · intro r rest i d hd
    cases hb : r.boxes with
    | none => simp [inferDetections, hb] at hd
    | some b =>
      cases hx : b.xyxy with
      | none => simp [inferDetections, hb, hx] at hd
      | some l =>
        simp only [inferDetections, hb, hx] at hd
        rw [buildRows_get?] at hd
        cases hgi : l.get? i with
        | none => rw [hgi] at hd; simp at hd
        | some bb =>
          rw [hgi] at hd
          simp only [Option.map_some'] at hd
          cases hd
          rfl
  · rfl

/-- C8 witness: the general clause of `class_name_resolution` applied to a
concrete detection whose class id is found in the mapping. -/
theorem class_name_resolution_witness :
    ({ x1 := 0, y1 := 0, x2 := 10, y2 := 10, class_id := some 2,
       class_name := some "car", confidence := some 1 } : Detection).class_name =
      (some (2 : Int)).bind
        (namesGet [((2 : Int), "car")]) := by
  exact class_name_resolution.1
    { boxes := some { xyxy := some [(0, 0, 10, 10)], conf := some [1], cls := some [2] },
      names := [(2, "car")] }
    [] 0
    { x1 := 0, y1 := 0, x2 := 10, y2 := 10, class_id := some 2,
      class_name := some "car", confidence := some 1 } rfl

/-- Timeout normalization from `infer_image`: Python runs
`timeout_seconds = float(timeout_seconds) if timeout_seconds else 60.0`
(falsy means `None` or `0.0`) followed by `if timeout_seconds <= 0:
timeout_seconds = 60.0`. Modelled over `ℚ`: the only operations are the zero
test and the order comparison, which are exact on the finite float values
involved. -/
def normalizeTimeout (t : Option ℚ) : ℚ :=
  let ts : ℚ :=
    match t with
    | none => 60
    | some x => if x = 0 then 60 else x
  if ts ≤ 0 then 60 else ts

/-- C9: an unset timeout and any non-positive timeout resolve to 60, and any
positive timeout is used unchanged; in particular 5 stays 5. -/
theorem normalizeTimeout_spec :
    normalizeTimeout none = 60 ∧
    (∀ x : ℚ, x ≤ 0 → normalizeTimeout (some x) = 60) ∧
    (∀ x : ℚ, 0 < x → normalizeTimeout (some x) = x) ∧
    normalizeTimeout (some 5) = 5 := by
  refine ⟨by norm_num [normalizeTimeout], ?_, ?_, by norm_num [normalizeTimeout]⟩
  · intro x hx
    by_cases h0 : x = 0
    · simp [normalizeTimeout, h0]
    · simp only [normalizeTimeout, if_neg h0]
      rw [if_pos hx]
  · intro x hx
    have h0 : x ≠ 0 := ne_of_gt hx
    simp only [normalizeTimeout, if_neg h0]
    rw [if_neg (not_le.mpr hx)]

/-- C9 witness: `normalizeTimeout_spec` applied at -3 (non-positive) and 5
(positive). -/
theorem normalizeTimeout_spec_witness :
    normalizeTimeout (some (-3)) = 60 ∧ normalizeTimeout (some 5) = 5 := by
  exact ⟨normalizeTimeout_spec.2.1 (-3) (by norm_num),
         normalizeTimeout_spec.2.2.1 5 (by norm_num)⟩

/-- Python slice `s[:n]` on text. -/
def truncateChars (n : Nat) (s : String) : String :=
  (s.toList.take n).asString

/-- Response handling inside `infer_image`'s `urlopen` block
(`remote_inference_client.py` lines 89-99): `json.loads` is the opaque
parameter `jsonParse`. A status of at least 400 raises
`RemoteInferenceError` with the status code and the first 400 characters of
the body; otherwise an unparsable body raises `RemoteInferenceError` with the
first 200 characters; otherwise the parsed JSON is returned unmodified. -/
def responseToResult (jsonParse : String → Option J) (status : Nat) (raw : String) :
    Except String J :=
  if 400 ≤ status then
    Except.error ("HTTP " ++ toString status ++ ": " ++ truncateChars 400 raw)
  else
    match jsonParse raw with
    | some v => Except.ok v
    | none => Except.error ("Server did not return valid JSON: " ++ truncateChars 200 raw)

/-- The `except error.HTTPError` branch of `infer_image`
(`remote_inference_client.py` lines 100-106): the `urllib` runtime surfaces
statuses ≥ 400 as `HTTPError`, and the handler raises `RemoteInferenceError`
with the code and the first 400 characters of the error body. -/
def httpErrorToResult (code : Nat) (detail : String) : Except String J :=
  Except.error ("HTTPError " ++ toString code ++ ": " ++ truncateChars 400 detail)

theorem truncateChars_length (n : Nat) (s : String) :
    (truncateChars n s).length ≤ n := by
  show (s.toList.take n).asString.length ≤ n
  have h1 : (s.toList.take n).asString.length = (s.toList.take n).length := rfl
  rw [h1]
  exact (List.length_take n s.toList).le.trans (min_le_left n s.toList.length)

theorem truncateChars_prefix (n : Nat) (s : String) :
    ∃ t : List Char, s.toList = (truncateChars n s).toList ++ t := by
  refine ⟨s.toList.drop n, ?_⟩
  show s.toList = (s.toList.take n).asString.toList ++ s.toList.drop n
  have h1 : (s.toList.take n).asString.toList = s.toList.take n := rfl
  rw [h1, List.take_append_drop]

/-- C4: with status at least 400, the call fails carrying the status code and
a truncation of the body to at most 400 characters (a prefix of the body);
with status below 400 and an unparsable body it fails carrying at most 200
characters of the raw body; with status below 400 and a parsable body the
parsed JSON is returned unmodified; the `HTTPError` branch likewise carries
the code and at most 400 characters of the body. -/
theorem responseToResult_spec :
    (∀ (jp : String → Option J) (status : Nat) (raw : String), 400 ≤ status →
      responseToResult jp status raw =
        Except.error ("HTTP " ++ toString status ++ ": " ++ truncateChars 400 raw) ∧
      (truncateChars 400 raw).length ≤ 400 ∧
      ∃ t, raw.toList = (truncateChars 400 raw).toList ++ t) ∧
    (∀ (jp : String → Option J) (status : Nat) (raw : String),
      status < 400 → jp raw = none →
      responseToResult jp status raw =
        Except.error ("Server did not return valid JSON: " ++ truncateChars 200 raw) ∧
      (truncateChars 200 raw).length ≤ 200 ∧
      ∃ t, raw.toList = (truncateChars 200 raw).toList ++ t) ∧
    (∀ (jp : String → Option J) (status : Nat) (raw : String) (v : J),
      status < 400 → jp raw = some v →
      responseToResult jp status raw = Except.ok v) ∧
    (∀ (code : Nat) (detail : String),
      httpErrorToResult code detail =
        Except.error ("HTTPError " ++ toString code ++ ": " ++ truncateChars 400 detail) ∧
      (truncateChars 400 detail).length ≤ 400) := by
  refine ⟨?_, ?_, ?_, ?_⟩
  · intro jp status raw h
    exact ⟨by simp [responseToResult, h], truncateChars_length 400 raw,
           truncateChars_prefix 400 raw⟩
  · intro jp status raw h hjp
    refine ⟨?_, truncateChars_length 200 raw, truncateChars_prefix 200 raw⟩
    simp [responseToResult, not_le.mpr h, hjp]
  · intro jp status raw v h hjp
    simp [responseToResult, not_le.mpr h, hjp]
  · intro code detail
    exact ⟨rfl, truncateChars_length 400 detail⟩

/-- C4 witness: `responseToResult_spec` applied at a 500 response, a 200
response with an unparsable body, a 200 response with a parsable body, and an
`HTTPError` with code 404. -/
theorem responseToResult_spec_witness :
    responseToResult (fun _ => none) 500 "boom" =
      Except.error ("HTTP " ++ toString 500 ++ ": " ++ truncateChars 400 "boom") ∧
    responseToResult (fun _ => none) 200 "<html>" =
      Except.error ("Server did not return valid JSON: " ++ truncateChars 200 "<html>") ∧
    responseToResult (fun _ => some (J.arr [])) 200 "[]" = Except.ok (J.arr []) ∧
    httpErrorToResult 404 "missing" =
      Except.error ("HTTPError " ++ toString 404 ++ ": " ++ truncateChars 400 "missing") := by
  exact ⟨(responseToResult_spec.1 (fun _ => none) 500 "boom" (by norm_num)).1,
         (responseToResult_spec.2.1 (fun _ => none) 200 "<html>" (by norm_num) rfl).1,
         responseToResult_spec.2.2.1 (fun _ => some (J.arr [])) 200 "[]" (J.arr [])
           (by norm_num) rfl,
         (responseToResult_spec.2.2.2 404 "missing").1⟩

/-- Module-level model initialization of `yolo_inference_server.py`
(lines 57-67): if the `ultralytics` import failed, `model` stays `None` and
`MODEL_ERROR` records the import failure; otherwise `YOLO(MODEL_PATH)` is
attempted, with success setting `model` and leaving `MODEL_ERROR` as `None`
and failure recording a load message. The opaque model type and constructor
are parameters. Returns `(model, MODEL_ERROR)`. -/
def initModel (M : Type) (importErr : Option String)
    (loadModel : String → Except String M) (modelPath : String) :
    Option M × Option String :=
  match importErr with
  | some e => (none, some ("ultralytics import failed: " ++ e))
  | none =>
    match loadModel modelPath with
    | Except.ok m => (some m, none)
    | Except.error e =>
      (none, some ("model load failed for '" ++ modelPath ++ "': " ++ e))

/-- Python `None`-or-string serialized to JSON. -/
def jOfOptStr (o : Option String) : J :=
  match o with
  | none => J.null
  | some s => J.str s

/-- Python `None`-or-int serialized to JSON. -/
def jOfOptInt (o : Option Int) : J :=
  match o with
  | none => J.null
  | some n => J.num n

/-- The `GET /health` handler: status is "ok" exactly when the model object
exists, `model_ready` mirrors the same test, `detail` serializes
`MODEL_ERROR`. -/
def healthResponse (M : Type) (modelPath : String) (model : Option M)
    (modelError : Option String) : J :=
  J.obj [("status", J.str (if model.isSome then "ok" else "degraded")),
         ("model", J.str modelPath),
         ("model_ready", J.bool model.isSome),
         ("detail", jOfOptStr modelError)]

/-- Field access on a JSON object value. -/
def jGet (j : J) (k : String) : Option J :=
  match j with
  | J.obj kvs => jLookup kvs k
  | _ => none

/-- The health document produced by a process whose model state came from
module initialization. -/
def healthAfterInit (M : Type) (importErr : Option String)
    (loadModel : String → Except String M) (modelPath : String) : J :=
  healthResponse M modelPath (initModel M importErr loadModel modelPath).1
    (initModel M importErr loadModel modelPath).2

/-- C10: in every process state reachable from module initialization, the
health document is internally consistent — `status` is "ok" iff
`model_ready` is true iff the import succeeded and the model loaded; the
status is always either "ok" or "degraded"; and `detail` is null exactly
when the model is ready (otherwise it carries the import/load error text). -/
theorem health_consistency (M : Type) (importErr : Option String)
    (loadModel : String → Except String M) (path : String) :
    (jGet (healthAfterInit M importErr loadModel path) "status" = some (J.str "ok") ↔
      jGet (healthAfterInit M importErr loadModel path) "model_ready" = some (J.bool true)) ∧
    (jGet (healthAfterInit M importErr loadModel path) "model_ready" = some (J.bool true) ↔
      (importErr = none ∧ ∃ m, loadModel path = Except.ok m)) ∧
    (jGet (healthAfterInit M importErr loadModel path) "status" = some (J.str "ok") ∨
      jGet (healthAfterInit M importErr loadModel path) "status" = some (J.str "degraded")) ∧
    (jGet (healthAfterInit M importErr loadModel path) "detail" = some J.null ↔
      jGet (healthAfterInit M importErr loadModel path) "model_ready" = some (J.bool true)) := by
  cases importErr with
  | some e =>
    simp [healthAfterInit, healthResponse, initModel, jGet, jLookup, jOfOptStr]
  | none =>
    cases hl : loadModel path with
    | ok m =>
      simp [healthAfterInit, healthResponse, initModel, jGet, jLookup, jOfOptStr, hl]
    | error e =>
      simp [healthAfterInit, healthResponse, initModel, jGet, jLookup, jOfOptStr, hl]

/-- One `POST /infer` request: the `image` form-data file's bytes, when the
field is present. -/
def detectionToJ (d : Detection) : J :=
  J.obj [("x1", J.num d.x1), ("y1", J.num d.y1),
         ("x2", J.num d.x2), ("y2", J.num d.y2),
         ("class_id", jOfOptInt d.class_id),
         ("class_name", jOfOptStr d.class_name),
         ("confidence", jOfOptInt d.confidence)]

/-- The `POST /infer` handler of `yolo_inference_server.py` (lines 82-143),
returning the HTTP status and the JSON body. PIL decoding and the model's
`predict` are opaque parameters; `imageField` is `request.files.get("image")`
read into bytes. -/
def inferHandler (M I : Type) (model : Option M) (modelError : Option String)
    (decodeImage : String → Except String I)
    (predict : M → I → List RawResult)
    (imageField : Option String) : Nat × J :=
  match model with
  | none =>
    (503, J.obj [("error", J.str "YOLO model is not ready"),
                 ("detail", jOfOptStr modelError),
                 ("detections", J.arr [])])
  | some m =>
    match imageField with
    | none => (400, J.obj [("error", J.str "form-data field 'image' is required")])
    | some bytes =>
      if bytes = "" then
        (400, J.obj [("error", J.str "image payload is empty")])
      else
        match decodeImage bytes with
        | Except.error exc =>
          (400, J.obj [("error", J.str "invalid image file"), ("detail", J.str exc)])
        | Except.ok img =>
          (200, J.obj [("detections",
            J.arr ((inferDetections (predict m img)).map detectionToJ))])

/-- A sequence of independent requests handled by the same process: the
handler reads only the process-wide read-only model state and its own
request. -/
def handleRequests (M I : Type) (model : Option M) (modelError : Option String)
    (decodeImage : String → Except String I)
    (predict : M → I → List RawResult)
    (reqs : List (Option String)) : List (Nat × J) :=
  reqs.map (inferHandler M I model modelError decodeImage predict)

/-- C5: the `/infer` error mapping — model not loaded gives 503 with error,
detail and an empty detections array; a missing `image` field gives 400 with
exactly "form-data field 'image' is required"; an empty payload gives 400
with exactly "image payload is empty"; an undecodable image gives 400 with
"invalid image file" and a detail string; and in any request sequence each
response is a function of that request alone, so no failure affects
subsequent requests. -/
theorem inferHandler_spec (M I : Type) (modelError : Option String)
    (decodeImage : String → Except String I) (predict : M → I → List RawResult) :
    (∀ img : Option String,
      inferHandler M I none modelError decodeImage predict img =
        (503, J.obj [("error", J.str "YOLO model is not ready"),
                     ("detail", jOfOptStr modelError),
                     ("detections", J.arr [])])) ∧
    (∀ m : M,
      inferHandler M I (some m) modelError decodeImage predict none =
        (400, J.obj [("error", J.str "form-data field 'image' is required")])) ∧
    (∀ m : M,
      inferHandler M I (some m) modelError decodeImage predict (some "") =
        (400, J.obj [("error", J.str "image payload is empty")])) ∧
    (∀ (m : M) (bytes exc : String), bytes ≠ "" →
      decodeImage bytes = Except.error exc →
      inferHandler M I (some m) modelError decodeImage predict (some bytes) =
        (400, J.obj [("error", J.str "invalid image file"), ("detail", J.str exc)])) ∧
    (∀ (model : Option M) (reqs : List (Option String)) (i : Nat),
      (handleRequests M I model modelError decodeImage predict reqs).get? i =
        (reqs.get? i).map (inferHandler M I model modelError decodeImage predict)) := by
  refine ⟨fun img => rfl, fun m => rfl, fun m => rfl, ?_, ?_⟩
  · intro m bytes exc hb hd
    simp [inferHandler, hb, hd]
  · intro model reqs i
    simp [handleRequests]

/-- C5 witness: the hypothesis-bearing clause of `inferHandler_spec` applied
to a concrete undecodable payload. -/
theorem inferHandler_spec_witness :
    inferHandler Unit Unit (some ()) none (fun _ => Except.error "cannot identify image")
        (fun _ _ => []) (some "JUNK") =
      (400, J.obj [("error", J.str "invalid image file"),
                   ("detail", J.str "cannot identify image")]) := by
  exact (inferHandler_spec Unit Unit none (fun _ => Except.error "cannot identify image")
    (fun _ _ => [])).2.2.2.1 () "JUNK" "cannot identify image" (by decide) rfl

/-- CRLF line terminator used throughout the multipart encoding. -/
def crlf : List Char := ['\r', '\n']

/-- `os.path.basename` (POSIX rule): the characters after the last '/'. -/
def basename (p : List Char) : List Char :=
  p.foldl (fun acc c => if c = '/' then [] else acc ++ [c]) []

/-- The multipart boundary of `_encode_multipart`: the fixed stem plus the
uuid4 hex, which is the opaque `hex` parameter. -/
def mivBoundary (hex : List Char) : List Char :=
  "----MIVBoundary".toList ++ hex

/-- The four chunks `_encode_multipart` appends per extra field
(`remote_inference_client.py` lines 38-42). -/
def fieldChunks (boundary : List Char) (kv : String × String) : List (List Char) :=
  ["--".toList ++ boundary ++ crlf,
   "Content-Disposition: form-data; name=\"".toList ++ kv.1.toList ++ "\"".toList
     ++ crlf ++ crlf,
   kv.2.toList,
   crlf]

/-- The chunks `_encode_multipart` appends for the image part and the closing
delimiter (`remote_inference_client.py` lines 49-56). -/
def imageChunks (boundary filename guessedType imageBytes : List Char) :
    List (List Char) :=
  ["--".toList ++ boundary ++ crlf,
   "Content-Disposition: form-data; name=\"image\"; filename=\"".toList ++ filename
     ++ "\"".toList ++ crlf,
   "Content-Type: ".toList ++ guessedType ++ crlf ++ crlf,
   imageBytes,
   crlf,
   "--".toList ++ boundary ++ "--".toList ++ crlf]

/-- `_encode_multipart` from `remote_inference_client.py`: builds the chunk
list for each extra field in order, then the image part named `image` with
the file's base name and the guessed content type (default
`application/octet-stream`), then joins the chunks. `mimetypes.guess_type`
is the opaque `guessType`; the file's bytes (the source reads the whole
file) are `imageBytes`. Returns `(body, content_type)`. -/
def encodeMultipart (hex : List Char) (fields : List (String × String))
    (imagePath : List Char) (guessType : List Char → Option (List Char))
    (imageBytes : List Char) : List Char × List Char :=
  let boundary := mivBoundary hex
  let filename := basename imagePath
  let guessedType := (guessType filename).getD "application/octet-stream".toList
  (((fields.map (fieldChunks boundary)).flatten
      ++ imageChunks boundary filename guessedType imageBytes).flatten,
   "multipart/form-data; boundary=".toList ++ boundary)

/-- The serialized bytes of one extra-field part, stated per the spec: a
`form-data` part named by the field's key carrying its value. -/
def fieldPartBytes (boundary : List Char) (key value : String) : List Char :=
  "--".toList ++ boundary ++ crlf
  ++ "Content-Disposition: form-data; name=\"".toList ++ key.toList ++ "\"".toList
  ++ crlf ++ crlf
  ++ value.toList ++ crlf

/-- The serialized bytes of the final image part, stated per the spec: a part
named `image` with the file's base name and the guessed content type,
carrying the raw file bytes. -/
def imagePartBytes (boundary filename guessedType imageBytes : List Char) :
    List Char :=
  "--".toList ++ boundary ++ crlf
  ++ "Content-Disposition: form-data; name=\"image\"; filename=\"".toList
  ++ filename ++ "\"".toList ++ crlf
  ++ "Content-Type: ".toList ++ guessedType ++ crlf ++ crlf
  ++ imageBytes ++ crlf

/-- The closing multipart delimiter. -/
def closingBytes (boundary : List Char) : List Char :=
  "--".toList ++ boundary ++ "--".toList ++ crlf

theorem fieldChunks_flatten (boundary : List Char) (fields : List (String × String)) :
    ((fields.map (fieldChunks boundary)).flatten).flatten =
      (fields.map (fun kv => fieldPartBytes boundary kv.1 kv.2)).flatten := by
  induction fields with
  | nil => rfl
  | cons kv rest ih =>
    simp only [List.map_cons, List.flatten_cons, List.flatten_append]
    rw [ih]
    simp [fieldChunks, fieldPartBytes, List.append_assoc]

/-- One decoded part of a multipart body: its name, optional filename,
optional content type and raw content. -/
structure MPart where
  name : List Char
  filename : Option (List Char)
  contentType : Option (List Char)
  content : List Char
deriving DecidableEq

/-- First occurrence split: `splitFirst sep s = some (a, b)` when
`s = a ++ sep ++ b` with `a` minimal; fuel-driven scan. -/
def splitFirstAux (sep : List Char) : Nat → List Char → List Char →
    Option (List Char × List Char)
  | 0, _, _ => none
  | fuel + 1, acc, s =>
    if sep.isPrefixOf s then some (acc.reverse, s.drop sep.length)
    else
      match s with
      | [] => none
      | c :: rest => splitFirstAux sep fuel (c :: acc) rest

def splitFirst (sep s : List Char) : Option (List Char × List Char) :=
  splitFirstAux sep (s.length + 1) [] s

/-- Split on every occurrence of `sep`. -/
def splitAllAux (sep : List Char) : Nat → List Char → List (List Char)
  | 0, s => [s]
  | fuel + 1, s =>
    match splitFirst sep s with
    | none => [s]
    | some (a, b) => a :: splitAllAux sep fuel b

def splitAll (sep s : List Char) : List (List Char) :=
  splitAllAux sep (s.length + 1) s

/-- Parse a `Content-Disposition: form-data` header line into the part name
and optional filename. -/
def parseDisposition (line : List Char) : Option (List Char × Option (List Char)) :=
  let pre := "Content-Disposition: form-data; name=\"".toList
  if pre.isPrefixOf line then
    match splitFirst "\"".toList (line.drop pre.length) with
    | some (nm, rest) =>
      let fpre := "; filename=\"".toList
      if fpre.isPrefixOf rest then
        match splitFirst "\"".toList (rest.drop fpre.length) with
        | some (fn, _) => some (nm, some fn)
        | none => none
      else some (nm, none)
    | none => none
  else none

/-- Parse a `Content-Type` header line into its value. -/
def parseContentType (line : List Char) : Option (List Char) :=
  let pre := "Content-Type: ".toList
  if pre.isPrefixOf line then some (line.drop pre.length) else none

/-- Assemble a decoded part from its header block and content. -/
def headersToPart (block content : List Char) : Option MPart :=
  let lines := splitAll crlf block
  let dispo := lines.foldl
    (fun acc line =>
      match acc with
      | some d => some d
      | none => parseDisposition line) none
  let ctype := lines.foldl
    (fun acc line =>
      match acc with
      | some t => some t
      | none => parseContentType line) none
  match dispo with
  | some nmfn => some ⟨nmfn.1, nmfn.2, ctype, content⟩
  | none => none

/-- Parse the parts of a multipart body after the opening delimiter: each part
is a header block, a blank line, content up to the next boundary delimiter,
which either closes the body (`--` suffix) or starts the next part. -/
def parsePartsAux (boundary : List Char) : Nat → List Char → Option (List MPart)
  | 0, _ => none
  | fuel + 1, s =>
    match splitFirst (crlf ++ crlf) s with
    | none => none
    | some (hdr, rest) =>
      match splitFirst (crlf ++ "--".toList ++ boundary) rest with
      | none => none
      | some (content, after) =>
        match headersToPart hdr content with
        | none => none
        | some p =>
          if after = "--".toList ++ crlf then some [p]
          else if crlf.isPrefixOf after then
            match parsePartsAux boundary fuel (after.drop 2) with
            | some ps => some (p :: ps)
            | none => none
          else none

/-- A standard multipart/form-data parser: requires the opening delimiter,
then parses the delimited parts. -/
def parseMultipart (boundary body : List Char) : Option (List MPart) :=
  let dash := "--".toList ++ boundary ++ crlf
  if dash.isPrefixOf body then
    parsePartsAux boundary (body.length + 1) (body.drop dash.length)
  else none

set_option maxRecDepth 100000 in
/-- C3: the encoded body is, in order, one form-data part per extra field
named by its key, then a final part named `image` carrying the raw file bytes
with the file's base name and the guessed content type (default
`application/octet-stream`), then the closing delimiter; and the concrete
round trip of the spec — one extra field `source=test` and a 10-byte image —
decodes to exactly those two parts. -/
theorem encodeMultipart_spec :
    (∀ (hex : List Char) (fields : List (String × String)) (imagePath : List Char)
      (guessType : List Char → Option (List Char)) (imageBytes : List Char),
      (encodeMultipart hex fields imagePath guessType imageBytes).1 =
        (fields.map (fun kv => fieldPartBytes (mivBoundary hex) kv.1 kv.2)).flatten
        ++ imagePartBytes (mivBoundary hex) (basename imagePath)
            ((guessType (basename imagePath)).getD "application/octet-stream".toList)
            imageBytes
        ++ closingBytes (mivBoundary hex)) ∧
    parseMultipart (mivBoundary "x".toList)
      (encodeMultipart "x".toList [("source", "test")] "photo.png".toList
        (fun _ => none) "0123456789".toList).1 =
      some [{ name := "source".toList, filename := none, contentType := none,
              content := "test".toList },
            { name := "image".toList, filename := some "photo.png".toList,
              contentType := some "application/octet-stream".toList,
              content := "0123456789".toList }] := by
  constructor
  · intro hex fields imagePath guessType imageBytes
    show (((fields.map (fieldChunks (mivBoundary hex))).flatten
        ++ imageChunks (mivBoundary hex) (basename imagePath)
            ((guessType (basename imagePath)).getD "application/octet-stream".toList)
            imageBytes).flatten) = _
    rw [List.flatten_append, fieldChunks_flatten]
    simp [imageChunks, imagePartBytes, closingBytes, List.append_assoc]
  · decide
